import Mathlib

/-!
# Verification of the rsync-web run orchestrator

A shallow embedding of the backup executor of the `rsync-web` repository
(`BackupExecutor` and its helpers): the single-flight run orchestrator, the
rsync exit-code classifier, the bounded persisted run history, the rsync
argument builder, the log-filename access control, and the transcript
retention policy.

Conventions of the embedding:
* Go wall-clock instants (`time.Time` as produced by `time.Now()`) are
  modelled at second resolution by the civil-time structure `GoTime`;
  `formatRunID` mirrors `time.Format("20060102-150405")` for in-range times.
* The mutable executor (`status`, `current`, `history` fields guarded by the
  mutex, plus the persisted history file) is the record `ExecState`; each Go
  method becomes a pure state transformer, and the mutex-linearised
  observable instants are the states reachable through the `Step` relation.
* The history file written by `encoding/json` is modelled by `HistFile`:
  the external JSON codec round-trips every `BackupRun` field exactly, so
  marshalling is abstracted as the constructor `HistFile.stored`, and a
  missing or unparseable file as `HistFile.absent` / `HistFile.malformed`.
* Filesystem side effects are made explicit data: `ReadLog` returns the
  read request it issues, `pruneOldLogs` returns the list of deleted names,
  and `execute`'s interaction with the subprocess is the `ExecResult` it
  observes together with the `ExecEffect` it performs.
-/

namespace RsyncWeb

/-- The five `BackupStatus` constants of the source. -/
inductive BackupStatus
  | idle
  | running
  | success
  | warning
  | failed
deriving DecidableEq, Repr

/-- A wall-clock instant at second resolution, as observed via `time.Now()`
and consumed by `Format("20060102-150405")` and second-truncated durations. -/
structure GoTime where
  year : Nat
  month : Nat
  day : Nat
  hour : Nat
  minute : Nat
  sec : Nat
deriving DecidableEq, Repr

/-- Range constraints every instant returned by `time.Now()` satisfies. -/
def GoTime.Valid (t : GoTime) : Prop :=
  t.year < 10000 ∧ 1 ≤ t.month ∧ t.month ≤ 12 ∧ 1 ≤ t.day ∧ t.day ≤ 31 ∧
    t.hour < 24 ∧ t.minute < 60 ∧ t.sec < 60

instance (t : GoTime) : Decidable t.Valid := by
  unfold GoTime.Valid; infer_instance

/-- `time.Time.Format("20060102-150405")`: zero-padded `YYYYMMDD-HHMMSS`. -/
def formatRunID (t : GoTime) : String :=
  String.mk
    [Nat.digitChar (t.year / 1000), Nat.digitChar (t.year / 100 % 10),
     Nat.digitChar (t.year / 10 % 10), Nat.digitChar (t.year % 10),
     Nat.digitChar (t.month / 10), Nat.digitChar (t.month % 10),
     Nat.digitChar (t.day / 10), Nat.digitChar (t.day % 10),
     '-',
     Nat.digitChar (t.hour / 10), Nat.digitChar (t.hour % 10),
     Nat.digitChar (t.minute / 10), Nat.digitChar (t.minute % 10),
     Nat.digitChar (t.sec / 10), Nat.digitChar (t.sec % 10)]

/-- Days since 1970-01-01 of a civil date (standard civil-from-days inverse,
used only to give `time.Time.Sub` a concrete meaning for durations). -/
def daysFromCivil (y m d : Int) : Int :=
  let y' := if m ≤ 2 then y - 1 else y
  let era := (if 0 ≤ y' then y' else y' - 399) / 400
  let yoe := y' - era * 400
  let mp := (m + 9) % 12
  let doy := (153 * mp + 2) / 5 + d - 1
  let doe := yoe * 365 + yoe / 4 - yoe / 100 + doy
  era * 146097 + doe - 719468

/-- Seconds since the epoch of a `GoTime` (meaning of `time.Time.Sub` at
second resolution). -/
def GoTime.toSecs (t : GoTime) : Int :=
  ((daysFromCivil t.year t.month t.day * 24 + t.hour) * 60 + t.minute) * 60
    + t.sec

/-- `time.Duration.String()` for a duration already truncated to whole
seconds (as produced by `.Truncate(time.Second)`), nonnegative case. -/
def goDurationString (secs : Nat) : String :=
  let h := secs / 3600
  let m := secs % 3600 / 60
  let s := secs % 60
  if 0 < h then toString h ++ "h" ++ toString m ++ "m" ++ toString s ++ "s"
  else if 0 < m then toString m ++ "m" ++ toString s ++ "s"
  else toString s ++ "s"

/-- The `BackupRun` record of the source. `EndTime`'s zero value is `none`;
`Duration` and `Summary` start as the empty string, `ExitCode` as `0`. -/
structure BackupRun where
  id : String
  startTime : GoTime
  endTime : Option GoTime
  duration : String
  status : BackupStatus
  exitCode : Int
  logFile : String
  summary : String
deriving DecidableEq, Repr

/-- The configuration fields consumed by the executor (`Config`). -/
structure Config where
  sourcePath : String
  sourceIsFile : Bool
  remoteHost : String
  remotePath : String
  sshKeyPath : String
  bandwidthLimit : Int
  logDir : String
  maxLogFiles : Nat
deriving DecidableEq, Repr

/-- The persisted history file (`history.json`), with the external JSON
codec abstracted as a faithful round-trip: `stored rs` is the marshalling
of `rs` (every `BackupRun` field survives `encoding/json` exactly),
`absent` a missing file, `malformed` content `json.Unmarshal` rejects. -/
inductive HistFile
  | absent
  | malformed
  | stored (runs : List BackupRun)
deriving DecidableEq, Repr

/-- The mutex-guarded mutable state of a `BackupExecutor`, together with the
persisted history file it owns. -/
structure ExecState where
  status : BackupStatus
  current : Option BackupRun
  history : List BackupRun
  file : HistFile
deriving DecidableEq, Repr

/-- `strings.TrimRight(s, "/")`: drop every trailing `/`. -/
def trimRightSlash (s : String) : String :=
  String.mk ((s.data.reverse.dropWhile (fun c => c == '/')).reverse)

/-- `BackupExecutor.buildRsyncArgs`: the source argument. A file source is
passed verbatim; a directory source gets its trailing slashes normalised to
exactly one. -/
def sourceArg (cfg : Config) : String :=
  if cfg.sourceIsFile then cfg.sourcePath
  else trimRightSlash cfg.sourcePath ++ "/"

/-- `BackupExecutor.buildRsyncArgs`: the destination argument
`host:path/` with trailing slashes of the configured path stripped first. -/
def destArg (cfg : Config) : String :=
  cfg.remoteHost ++ ":" ++ trimRightSlash cfg.remotePath ++ "/"

/-- The `-e` remote-shell command embedding the configured key path. -/
def sshCommand (keyPath : String) : String :=
  "ssh -i " ++ keyPath ++
    " -o StrictHostKeyChecking=no -o UserKnownHostsFile=/dev/null"

/-- `BackupExecutor.buildRsyncArgs`. -/
def buildRsyncArgs (cfg : Config) : List String :=
  let args := ["-avz", "--delete", "--partial", "--stats",
               "-e", sshCommand cfg.sshKeyPath]
  let args := if 0 < cfg.bandwidthLimit then
      args ++ ["--bwlimit=" ++ toString cfg.bandwidthLimit]
    else args
  args ++ [sourceArg cfg, destArg cfg]

/-- `rsyncExitSummary`: human-readable summary for an rsync exit code. -/
def rsyncExitSummary (code : Int) : String :=
  if code = 1 then "syntax or usage error"
  else if code = 2 then "protocol incompatibility"
  else if code = 3 then "errors selecting input/output files"
  else if code = 5 then "error starting client-server protocol"
  else if code = 10 then "error in socket I/O"
  else if code = 11 then "error in file I/O"
  else if code = 12 then "error in rsync protocol data stream"
  else if code = 14 then "error in IPC code"
  else if code = 20 then "interrupted by signal"
  else if code = 23 then "partial transfer — some files could not be transferred"
  else if code = 24 then "partial transfer — some source files vanished during sync"
  else if code = 25 then "max-delete limit reached"
  else if code = 30 then "timeout in data send/receive"
  else if code = 35 then "timeout waiting for daemon connection"
  else if code = 255 then "SSH connection failed — remote host unreachable or auth denied"
  else "rsync error (exit code " ++ toString code ++ ")"

/-- `isPartialTransfer`: the two partial-but-non-fatal rsync exit codes. -/
def isPartialTransfer (exitCode : Int) : Bool :=
  exitCode == 23 || exitCode == 24

/-- The classification switch of `finishRun`, shared by the run record and
the aggregate status. -/
def finishStatus (exitCode : Int) : BackupStatus :=
  if exitCode = 0 then BackupStatus.success
  else if isPartialTransfer exitCode then BackupStatus.warning
  else BackupStatus.failed

/-- The completed record `finishRun` stamps from the live run: end time,
second-truncated duration, exit code, summary and classified status. -/
def completeRecord (endT : GoTime) (run : BackupRun) (exitCode : Int)
    (summary : String) : BackupRun :=
  { run with
    endTime := some endT
    duration := goDurationString (endT.toSecs - run.startTime.toSecs).toNat
    exitCode := exitCode
    summary := summary
    status := finishStatus exitCode }

/-- `BackupExecutor.saveHistory`: persist the in-memory history, overwriting
the prior file. -/
def saveHistory (s : ExecState) : ExecState :=
  { s with file := HistFile.stored s.history }

/-- `BackupExecutor.finishRun`: stamp the record, set the aggregate status,
clear the current run, prepend to history (truncating to 100), persist. -/
def finishRun (endT : GoTime) (run : BackupRun) (exitCode : Int)
    (summary : String) (s : ExecState) : ExecState :=
  let run' := completeRecord endT run exitCode summary
  let hist := run' :: s.history
  let hist := if 100 < hist.length then hist.take 100 else hist
  saveHistory
    { s with status := run'.status, current := none, history := hist }

/-- `BackupExecutor.loadHistory`: a missing or malformed file leaves the
state untouched; otherwise install the stored records and seed the
aggregate status from the newest (first) record when there is one. -/
def loadHistory (s : ExecState) : ExecState :=
  match s.file with
  | HistFile.absent => s
  | HistFile.malformed => s
  | HistFile.stored runs =>
    let s' := { s with history := runs }
    match runs with
    | [] => s'
    | r :: _ => { s' with status := r.status }

/-- `NewBackupExecutor`: fresh idle state, then `loadHistory`. -/
def newBackupExecutor (f : HistFile) : ExecState :=
  loadHistory
    { status := BackupStatus.idle, current := none, history := [], file := f }

/-- `BackupExecutor.Run`: reject with "backup already in progress" while
running (first component is the returned error), otherwise transition to
running and publish a fresh current record; the asynchronous `execute` is
spawned by the caller of this transition (see `Step.complete`). -/
def Run (now : GoTime) (s : ExecState) : Option String × ExecState :=
  if s.status = BackupStatus.running then
    (some "backup already in progress", s)
  else
    let runID := formatRunID now
    let logFileName := "backup-" ++ runID ++ ".log"
    let run : BackupRun :=
      { id := runID
        startTime := now
        endTime := none
        duration := ""
        status := BackupStatus.running
        exitCode := 0
        logFile := logFileName
        summary := "" }
    (none, { s with status := BackupStatus.running, current := some run })

/-- What `execute` observes from the filesystem and the spawned process:
the transcript file failed to create, the process exited 0 (`cmd.Run()`
returned nil), the process exited with a code (`exec.ExitError`), or the
process could not be started at all (a non-`ExitError` failure). -/
inductive ExecResult
  | logCreateFailed
  | ok
  | exitErr (code : Int)
  | startErr
deriving DecidableEq, Repr

/-- What `execute` then does: the exit code and summary it hands to
`finishRun`, and whether the rsync subprocess was invoked at all. -/
structure ExecEffect where
  exitCode : Int
  summary : String
  rsyncInvoked : Bool
deriving DecidableEq, Repr

/-- The completion logic of `BackupExecutor.execute`: a failure to create
the transcript file finishes the run with code 1 and a fixed summary before
rsync is ever invoked; otherwise the exit code is classified by
`rsyncExitSummary` (a start failure counts as exit code 1). -/
def executeEffect : ExecResult → ExecEffect
  | ExecResult.logCreateFailed => ⟨1, "failed to create log file", false⟩
  | ExecResult.ok => ⟨0, "completed successfully", true⟩
  | ExecResult.exitErr c => ⟨c, rsyncExitSummary c, true⟩
  | ExecResult.startErr => ⟨1, rsyncExitSummary 1, true⟩

/-- `BackupExecutor.execute` as a state transformer: apply the observed
result's effect through `finishRun` (the transcript banners and
`pruneOldLogs` touch only the filesystem outside this state). -/
def execute (endT : GoTime) (res : ExecResult) (run : BackupRun)
    (s : ExecState) : ExecState :=
  let eff := executeEffect res
  finishRun endT run eff.exitCode eff.summary s

/-- One observable transition of the orchestrator: a `Run` call (covering
both the busy rejection, which leaves the state unchanged, and a successful
start), the completion of the in-flight run's asynchronous `execute`, or a
process restart that reconstructs the executor from the persisted file. -/
inductive Step : ExecState → ExecState → Prop
  | start (now : GoTime) (s : ExecState) : Step s (Run now s).2
  | complete (endT : GoTime) (res : ExecResult) (run : BackupRun)
      (s : ExecState) (h : s.current = some run) :
      Step s (execute endT res run s)
  | restart (s : ExecState) : Step s (newBackupExecutor s.file)

/-- The very first construction of the system: no history file yet. -/
def initExecutor : ExecState := newBackupExecutor HistFile.absent

/-- The observable instants of the system: every state reachable from the
initial construction through `Run` calls, run completions and restarts. -/
def Reachable (s : ExecState) : Prop :=
  Relation.ReflTransGen Step initExecutor s

/-- A directory entry as seen by `os.ReadDir`. -/
structure DirEntry where
  name : String
  isDir : Bool
deriving DecidableEq, Repr

/-- Char-list prefix test, the computational core of `strings.HasPrefix`,
`strings.HasSuffix` and the substring search of `stringsContains`. -/
def prefixCheck : List Char → List Char → Bool
  | [], _ => true
  | _ :: _, [] => false
  | a :: as, b :: bs => a == b && prefixCheck as bs

/-- `strings.HasPrefix(s, pre)`. -/
def hasPrefixStr (s pre : String) : Bool :=
  prefixCheck pre.data s.data

/-- `strings.HasSuffix(s, suf)`. -/
def hasSuffixStr (s suf : String) : Bool :=
  prefixCheck suf.data.reverse s.data.reverse

/-- The transcript-file filter of `pruneOldLogs`: non-directory entries
named `backup-*.log`. -/
def isBackupLog (e : DirEntry) : Bool :=
  !e.isDir && hasPrefixStr e.name "backup-" && hasSuffixStr e.name ".log"

/-- `BackupExecutor.pruneOldLogs` as the list of file names it deletes:
keep at most `maxLogFiles` transcript files, deleting the excess oldest by
ascending name order (`sort.Slice` with the `<` comparator on names is
modelled by insertion sort under `≤`, which agrees with it on the
duplicate-free name sets a directory can hold). -/
def pruneOldLogs (maxLogFiles : Nat) (entries : List DirEntry) :
    List String :=
  let logFiles := entries.filter isBackupLog
  if logFiles.length ≤ maxLogFiles then []
  else
    let sorted := (logFiles.map DirEntry.name).insertionSort (fun a b => a ≤ b)
    sorted.take (logFiles.length - maxLogFiles)

/-- Substring search over char lists (meaning of `strings.Contains`). -/
def containsSub (hay needle : List Char) : Bool :=
  match hay with
  | [] => prefixCheck needle []
  | _ :: t => prefixCheck needle hay || containsSub t needle

/-- `strings.Contains(s, sub)`. -/
def stringsContains (s sub : String) : Bool :=
  containsSub s.data sub.data

/-- The read request `ReadLog` issues: `os.ReadFile(filepath.Join(dir, name))`. -/
structure ReadRequest where
  dir : String
  name : String
deriving DecidableEq, Repr

/-- `BackupExecutor.ReadLog`: reject names containing `/`, `\` or `..`
before any filesystem access; otherwise read the named file inside the
configured log directory. -/
def ReadLog (logDir filename : String) : Except String ReadRequest :=
  if stringsContains filename "/" || stringsContains filename "\\"
      || stringsContains filename ".." then
    Except.error "invalid log filename"
  else
    Except.ok ⟨logDir, filename⟩

/-- A fixed wall-clock second used to exhibit two runs started within the
same second. -/
def tSame : GoTime := ⟨2024, 1, 2, 3, 4, 5⟩

/-- The record `Run` publishes when called at `tSame` on an idle executor. -/
def firstRun : BackupRun :=
  { id := formatRunID tSame
    startTime := tSame
    endTime := none
    duration := ""
    status := BackupStatus.running
    exitCode := 0
    logFile := "backup-" ++ formatRunID tSame ++ ".log"
    summary := "" }

/-- Every record of a history list carries a completed (non-`running`)
status, and the list respects the 100-record cap. -/
def HistOk (l : List BackupRun) : Prop :=
  (∀ r ∈ l, r.status ≠ BackupStatus.running) ∧ l.length ≤ 100

/-- The persisted file only ever holds well-formed, capped histories. -/
def FileOk : HistFile → Prop
  | HistFile.absent => True
  | HistFile.malformed => True
  | HistFile.stored l => HistOk l

/-- The orchestrator invariant: the single-flight contract (a current run
exists exactly while the aggregate status is `running`), a well-formed
bounded history, and a well-formed persisted file. -/
def Inv (s : ExecState) : Prop :=
  (s.current.isSome ↔ s.status = BackupStatus.running) ∧
    HistOk s.history ∧ FileOk s.file

/-! ## Helper lemmas about `finishRun` -/

theorem finishRun_historyEq (endT : GoTime) (run : BackupRun) (code : Int)
    (summary : String) (s : ExecState) :
    (finishRun endT run code summary s).history =
      (completeRecord endT run code summary :: s.history).take 100 := by
  unfold finishRun saveHistory
  by_cases h : 100 < (completeRecord endT run code summary :: s.history).length
  · simp [h]
  · have hle : (completeRecord endT run code summary :: s.history).length ≤ 100 := by
      omega
    simp [h, List.take_of_length_le hle]

theorem finishRun_head (endT : GoTime) (run : BackupRun) (code : Int)
    (summary : String) (s : ExecState) :
    (finishRun endT run code summary s).history.head? =
      some (completeRecord endT run code summary) := by
  rw [finishRun_historyEq, show (100 : Nat) = 99 + 1 from rfl,
    List.take_succ_cons, List.head?_cons]

theorem finishRun_status (endT : GoTime) (run : BackupRun) (code : Int)
    (summary : String) (s : ExecState) :
    (finishRun endT run code summary s).status = finishStatus code := by
  unfold finishRun saveHistory completeRecord
  by_cases h : 100 < (completeRecord endT run code summary :: s.history).length
  · simp [h, completeRecord]
  · simp [h, completeRecord]

theorem finishRun_current (endT : GoTime) (run : BackupRun) (code : Int)
    (summary : String) (s : ExecState) :
    (finishRun endT run code summary s).current = none := by
  unfold finishRun saveHistory
  by_cases h : 100 < (completeRecord endT run code summary :: s.history).length
  · simp [h]
  · simp [h]

theorem finishRun_file (endT : GoTime) (run : BackupRun) (code : Int)
    (summary : String) (s : ExecState) :
    (finishRun endT run code summary s).file =
      HistFile.stored (finishRun endT run code summary s).history := by
  unfold finishRun saveHistory
  by_cases h : 100 < (completeRecord endT run code summary :: s.history).length
  · simp [h]
  · simp [h]

theorem completeRecord_status (endT : GoTime) (run : BackupRun) (code : Int)
    (summary : String) :
    (completeRecord endT run code summary).status = finishStatus code := rfl

theorem completeRecord_summary (endT : GoTime) (run : BackupRun) (code : Int)
    (summary : String) :
    (completeRecord endT run code summary).summary = summary := rfl

theorem finishStatus_ne_running (code : Int) :
    finishStatus code ≠ BackupStatus.running := by
  unfold finishStatus
  split_ifs <;> simp

/-! ## Claim C2: the single-flight guard of `Run` -/

/-- C2: while the aggregate status is `running`, `Run` returns the
"backup already in progress" error and leaves the whole state unchanged;
otherwise it returns no error, transitions the status to `running`, and
publishes a fresh current record (status `running`, time-derived id, the
call's start time, derived transcript filename) without touching the
history or the persisted file. -/
theorem claim_C2_run_guard (now : GoTime) (s : ExecState) :
    (s.status = BackupStatus.running →
      Run now s = (some "backup already in progress", s)) ∧
    (s.status ≠ BackupStatus.running →
      (Run now s).1 = none ∧
      (Run now s).2.status = BackupStatus.running ∧
      (Run now s).2.current = some
        { id := formatRunID now
          startTime := now
          endTime := none
          duration := ""
          status := BackupStatus.running
          exitCode := 0
          logFile := "backup-" ++ formatRunID now ++ ".log"
          summary := "" } ∧
      (Run now s).2.history = s.history ∧
      (Run now s).2.file = s.file) := by
  constructor
  · intro h
    simp [Run, h]
  · intro h
    simp [Run, h]

/-- Concrete instance of C2 at an idle executor. -/
theorem claim_C2_witness :
    (Run ⟨2024, 1, 2, 3, 4, 5⟩ initExecutor).1 = none ∧
    (Run ⟨2024, 1, 2, 3, 4, 5⟩ initExecutor).2.status = BackupStatus.running :=
  ⟨((claim_C2_run_guard ⟨2024, 1, 2, 3, 4, 5⟩ initExecutor).2 (by decide)).1,
   ((claim_C2_run_guard ⟨2024, 1, 2, 3, 4, 5⟩ initExecutor).2 (by decide)).2.1⟩

/-! ## Claim C5: persistence round-trip -/

/-- C5: persisting any history of at most 100 records with `saveHistory`
and reconstructing a fresh executor from the resulting file yields the
identical ordered record sequence and seeds the aggregate status from the
newest (first) record; an absent or malformed history file yields an empty
history with the aggregate status left `idle`. -/
theorem claim_C5_roundtrip (s : ExecState) (hlen : s.history.length ≤ 100) :
    (newBackupExecutor (saveHistory s).file).history = s.history ∧
    (∀ (r : BackupRun) (l : List BackupRun), s.history = r :: l →
      (newBackupExecutor (saveHistory s).file).status = r.status) ∧
    (s.history = [] →
      (newBackupExecutor (saveHistory s).file).status = BackupStatus.idle) ∧
    newBackupExecutor HistFile.absent =
      { status := BackupStatus.idle, current := none, history := [],
        file := HistFile.absent } ∧
    newBackupExecutor HistFile.malformed =
      { status := BackupStatus.idle, current := none, history := [],
        file := HistFile.malformed } := by
  refine ⟨?_, ?_, ?_, rfl, rfl⟩
  · cases h : s.history with
    | nil => simp [newBackupExecutor, loadHistory, saveHistory, h]
    | cons r l => simp [newBackupExecutor, loadHistory, saveHistory, h]
  · intro r l h
    simp [newBackupExecutor, loadHistory, saveHistory, h]
  · intro h
    simp [newBackupExecutor, loadHistory, saveHistory, h]

/-- Concrete instance of C5: a two-record history round-trips and seeds the
status from its newest record. -/
theorem claim_C5_witness :
    (newBackupExecutor (saveHistory
        { status := BackupStatus.warning, current := none,
          history :=
            [{ id := "a", startTime := ⟨2024, 1, 2, 3, 4, 5⟩, endTime := none,
               duration := "", status := BackupStatus.warning, exitCode := 24,
               logFile := "backup-a.log", summary := "w" },
             { id := "b", startTime := ⟨2024, 1, 1, 3, 4, 5⟩, endTime := none,
               duration := "", status := BackupStatus.success, exitCode := 0,
               logFile := "backup-b.log", summary := "ok" }],
          file := HistFile.absent }).file).status = BackupStatus.warning :=
  (claim_C5_roundtrip _ (by decide)).2.1 _ _ rfl

/-! ## Claim C9: transcript-creation failure still records a failed run -/

/-- C9: when `execute` fails to create the transcript file, the run is
still recorded instead of crashing: `finishRun` receives exit code 1 and
the summary "failed to create log file", the stamped record and the
aggregate status become `failed`, the record is pushed into the history,
and the rsync subprocess is never invoked for that run. -/
theorem claim_C9_log_failure (endT : GoTime) (run : BackupRun)
    (s : ExecState) (h : s.current = some run) :
    (executeEffect ExecResult.logCreateFailed).exitCode = 1 ∧
    (executeEffect ExecResult.logCreateFailed).summary =
      "failed to create log file" ∧
    (executeEffect ExecResult.logCreateFailed).rsyncInvoked = false ∧
    (execute endT ExecResult.logCreateFailed run s).history.head? =
      some (completeRecord endT run 1 "failed to create log file") ∧
    (completeRecord endT run 1 "failed to create log file").status =
      BackupStatus.failed ∧
    (execute endT ExecResult.logCreateFailed run s).status =
      BackupStatus.failed ∧
    (execute endT ExecResult.logCreateFailed run s).current = none := by
  refine ⟨rfl, rfl, rfl, ?_, rfl, ?_, ?_⟩
  · exact finishRun_head endT run 1 "failed to create log file" s
  · exact finishRun_status endT run 1 "failed to create log file" s
  · exact finishRun_current endT run 1 "failed to create log file" s

/-- Concrete instance of C9 on a running executor. -/
theorem claim_C9_witness :
    (execute ⟨2024, 1, 2, 3, 4, 6⟩ ExecResult.logCreateFailed
      { id := "20240102-030405", startTime := ⟨2024, 1, 2, 3, 4, 5⟩,
        endTime := none, duration := "", status := BackupStatus.running,
        exitCode := 0, logFile := "backup-20240102-030405.log", summary := "" }
      { status := BackupStatus.running,
        current := some
          { id := "20240102-030405", startTime := ⟨2024, 1, 2, 3, 4, 5⟩,
            endTime := none, duration := "", status := BackupStatus.running,
            exitCode := 0, logFile := "backup-20240102-030405.log",
            summary := "" },
        history := [], file := HistFile.absent }).status =
      BackupStatus.failed :=
  (claim_C9_log_failure ⟨2024, 1, 2, 3, 4, 6⟩ _ _ rfl).2.2.2.2.2.1

/-! ## The orchestrator invariant -/

theorem inv_newBackupExecutor {f : HistFile} (hf : FileOk f) :
    Inv (newBackupExecutor f) := by
  cases f with
  | absent =>
    refine ⟨?_, ⟨?_, ?_⟩, ?_⟩ <;>
      simp [newBackupExecutor, loadHistory, FileOk]
  | malformed =>
    refine ⟨?_, ⟨?_, ?_⟩, ?_⟩ <;>
      simp [newBackupExecutor, loadHistory, FileOk]
  | stored l =>
    obtain ⟨hst, hlen⟩ := hf
    cases l with
    | nil =>
      refine ⟨?_, ⟨?_, ?_⟩, ?_⟩ <;>
        simp [newBackupExecutor, loadHistory, FileOk, HistOk]
    | cons r t =>
      have hr := hst r (by simp)
      refine ⟨?_, ⟨?_, ?_⟩, ?_⟩
      · simp [newBackupExecutor, loadHistory, hr]
      · simpa [newBackupExecutor, loadHistory] using hst
      · simpa [newBackupExecutor, loadHistory] using hlen
      · show FileOk (HistFile.stored (r :: t))
        exact ⟨hst, hlen⟩

theorem inv_init : Inv initExecutor :=
  inv_newBackupExecutor trivial

theorem inv_step {s s' : ExecState} (hInv : Inv s) (h : Step s s') :
    Inv s' := by
  obtain ⟨hcur, ⟨hst, hlen⟩, hfile⟩ := hInv
  cases h with
  | start now s =>
    by_cases hr : s.status = BackupStatus.running
    · simpa [Run, hr] using ⟨hcur, ⟨hst, hlen⟩, hfile⟩
    · exact ⟨by simp [Run, hr], ⟨by simpa [Run, hr] using hst,
        by simpa [Run, hr] using hlen⟩, by simpa [Run, hr] using hfile⟩
  | complete endT res run s hc =>
    have hist' := finishRun_historyEq endT run (executeEffect res).exitCode
      (executeEffect res).summary s
    have histOk : HistOk (execute endT res run s).history := by
      rw [execute, hist']
      constructor
      · intro r hr
        rcases List.mem_cons.mp (List.mem_of_mem_take hr) with h | h
        · rw [h, completeRecord_status]
          exact finishStatus_ne_running _
        · exact hst r h
      · simpa using by omega
    refine ⟨?_, histOk, ?_⟩
    · rw [execute, finishRun_current, finishRun_status]
      simp [finishStatus_ne_running]
    · rw [execute, finishRun_file]
      exact histOk
  | restart s =>
    exact inv_newBackupExecutor hfile

theorem reachable_inv {s : ExecState} (h : Reachable s) : Inv s := by
  induction h with
  | refl => exact inv_init
  | tail _ hstep ih => exact inv_step ih hstep

/-! ## Claim C1: the single-flight invariant -/

/-- C1: at every observable instant of every operation sequence — including
the instant right after construction, when the persisted history has been
loaded and the aggregate status seeded from its newest record — the current
run is non-null exactly when the aggregate status is `running`. -/
theorem claim_C1_single_flight (s : ExecState) (h : Reachable s) :
    s.current ≠ none ↔ s.status = BackupStatus.running := by
  rw [Option.ne_none_iff_isSome]
  exact (reachable_inv h).1

/-- Concrete instance of C1 at the freshly constructed executor. -/
theorem claim_C1_witness :
    initExecutor.current ≠ none ↔ initExecutor.status = BackupStatus.running :=
  claim_C1_single_flight initExecutor Relation.ReflTransGen.refl

/-! ## Claim C4: the history cap and prepend-only truncation -/

/-- C4: every observable state keeps the history at no more than 100
records (so both completing a run and loading the persisted file respect
the cap), and completing a run prepends the freshly stamped record while
any truncation only drops the oldest tail entries, never reordering: the
new history is a prefix of the record-prepended old history. -/
theorem claim_C4_history_cap :
    (∀ s : ExecState, Reachable s → s.history.length ≤ 100) ∧
    (∀ (endT : GoTime) (run : BackupRun) (code : Int) (summary : String)
        (s : ExecState),
      (finishRun endT run code summary s).history.head? =
        some (completeRecord endT run code summary) ∧
      (finishRun endT run code summary s).history <+:
        completeRecord endT run code summary :: s.history ∧
      (finishRun endT run code summary s).history.length ≤ 100) := by
  constructor
  · intro s h
    exact (reachable_inv h).2.1.2
  · intro endT run code summary s
    refine ⟨finishRun_head endT run code summary s, ?_, ?_⟩
    · rw [finishRun_historyEq]
      exact List.take_prefix 100 _
    · rw [finishRun_historyEq]
      simpa using by omega

/-- Concrete instance of C4: the initial state respects the cap, and one
concrete completion prepends its record. -/
theorem claim_C4_witness :
    initExecutor.history.length ≤ 100 ∧
    (finishRun ⟨2024, 1, 2, 3, 4, 6⟩
      { id := "20240102-030405", startTime := ⟨2024, 1, 2, 3, 4, 5⟩,
        endTime := none, duration := "", status := BackupStatus.running,
        exitCode := 0, logFile := "backup-20240102-030405.log", summary := "" }
      0 "completed successfully" initExecutor).history.head? =
      some (completeRecord ⟨2024, 1, 2, 3, 4, 6⟩
        { id := "20240102-030405", startTime := ⟨2024, 1, 2, 3, 4, 5⟩,
          endTime := none, duration := "", status := BackupStatus.running,
          exitCode := 0, logFile := "backup-20240102-030405.log", summary := "" }
        0 "completed successfully") :=
  ⟨claim_C4_history_cap.1 initExecutor Relation.ReflTransGen.refl,
   (claim_C4_history_cap.2 ⟨2024, 1, 2, 3, 4, 6⟩ _ 0 "completed successfully"
      initExecutor).1⟩

/-! ## Claim C3: the outcome classifier -/

/-- C3: for every integer exit code observed at run completion (exit 0 is
the nil-error path, any other code the `ExitError` path), the record pushed
into history carries that code and the classified tier and summary: 0 is
`success` "completed successfully"; 23 and 24 are the only `warning` codes,
with their partial-transfer summaries; every other non-zero code — 255 and
the rest of the known set with their specific texts, and any unrecognized
code with the generic "rsync error (exit code N)" text — is `failed`. -/
theorem claim_C3_exit_classification (code : Int) (endT : GoTime)
    (run : BackupRun) (s : ExecState) :
    (execute endT (if code = 0 then ExecResult.ok else ExecResult.exitErr code)
        run s).history.head? =
      some (completeRecord endT run code
        (if code = 0 then "completed successfully" else rsyncExitSummary code)) ∧
    (completeRecord endT run code
        (if code = 0 then "completed successfully" else rsyncExitSummary code)).exitCode
      = code ∧
    (completeRecord endT run code
        (if code = 0 then "completed successfully" else rsyncExitSummary code)).status
      = finishStatus code ∧
    (execute endT (if code = 0 then ExecResult.ok else ExecResult.exitErr code)
        run s).status = finishStatus code ∧
    (isPartialTransfer code = true ↔ (code = 23 ∨ code = 24)) ∧
    (code = 0 → finishStatus code = BackupStatus.success ∧
      (if code = 0 then "completed successfully" else rsyncExitSummary code) =
        "completed successfully") ∧
    (code = 23 → finishStatus code = BackupStatus.warning ∧
      rsyncExitSummary code =
        "partial transfer — some files could not be transferred") ∧
    (code = 24 → finishStatus code = BackupStatus.warning ∧
      rsyncExitSummary code =
        "partial transfer — some source files vanished during sync") ∧
    (code = 255 → finishStatus code = BackupStatus.failed ∧
      rsyncExitSummary code =
        "SSH connection failed — remote host unreachable or auth denied") ∧
    (code ≠ 0 → isPartialTransfer code = false →
      finishStatus code = BackupStatus.failed) ∧
    (code ∉ ([0, 1, 2, 3, 5, 10, 11, 12, 14, 20, 23, 24, 25, 30, 35, 255] :
        List Int) →
      rsyncExitSummary code =
        "rsync error (exit code " ++ toString code ++ ")") := by
  refine ⟨?_, rfl, rfl, ?_, ?_, ?_, ?_, ?_, ?_, ?_, ?_⟩
  · by_cases h0 : code = 0
    · subst h0
      simpa [execute, executeEffect] using finishRun_head endT run 0
        "completed successfully" s
    · simpa [execute, executeEffect, h0] using finishRun_head endT run code
        (rsyncExitSummary code) s
  · by_cases h0 : code = 0
    · subst h0
      simpa [execute, executeEffect] using finishRun_status endT run 0
        "completed successfully" s
    · simpa [execute, executeEffect, h0] using finishRun_status endT run code
        (rsyncExitSummary code) s
  · simp [isPartialTransfer]
  · intro h0
    subst h0
    exact ⟨rfl, rfl⟩
  · intro h
    subst h
    exact ⟨rfl, rfl⟩
  · intro h
    subst h
    exact ⟨rfl, rfl⟩
  · intro h
    subst h
    exact ⟨rfl, rfl⟩
  · intro h0 hp
    simp [finishStatus, h0, hp]
  · intro h
    simp only [List.mem_cons, List.not_mem_nil, or_false] at h
    push_neg at h
    obtain ⟨h0, h1, h2, h3, h5, h10, h11, h12, h14, h20, h23, h24, h25, h30,
      h35, h255⟩ := h
    simp [rsyncExitSummary, h1, h2, h3, h5, h10, h11, h12, h14, h20, h23,
      h24, h25, h30, h35, h255]

/-- Concrete instance of C3 at exit code 24. -/
theorem claim_C3_witness :
    finishStatus 24 = BackupStatus.warning ∧
    rsyncExitSummary 24 =
      "partial transfer — some source files vanished during sync" :=
  (claim_C3_exit_classification 24 ⟨2024, 1, 2, 3, 4, 6⟩
    { id := "20240102-030405", startTime := ⟨2024, 1, 2, 3, 4, 5⟩,
      endTime := none, duration := "", status := BackupStatus.running,
      exitCode := 0, logFile := "backup-20240102-030405.log", summary := "" }
    initExecutor).2.2.2.2.2.2.2.1 rfl

/-! ## Claim C6: the rsync argument vector -/

theorem trimRightSlash_getLast (s : String) :
    (trimRightSlash s).data.getLast? ≠ some '/' := by
  intro h
  have h' : ((s.data.reverse.dropWhile (fun c => c == '/')).reverse).getLast?
      = some '/' := h
  rw [List.getLast?_reverse] at h'
  have h2 := List.head?_dropWhile_not (fun c => c == '/') s.data.reverse
  rw [h'] at h2
  simp at h2

theorem no_double_slash {xs : List Char} (hx : xs.getLast? ≠ some '/') :
    ¬ ['/', '/'] <:+ xs ++ ['/'] := by
  rintro ⟨u, hu⟩
  have h2 : (u ++ ['/']) ++ ['/'] = xs ++ ['/'] := by
    simpa [List.append_assoc] using hu
  have h3 : u ++ ['/'] = xs := List.append_cancel_right h2
  apply hx
  rw [← h3, List.getLast?_append]
  simp

theorem destPrefix_getLast (host p : String) :
    (host ++ ":" ++ trimRightSlash p).data.getLast? ≠ some '/' := by
  rw [String.data_append, List.getLast?_append]
  cases hX : (trimRightSlash p).data.getLast? with
  | none =>
    rw [String.data_append, List.getLast?_append]
    have hc : (":" : String).data = [':'] := rfl
    rw [hc]
    simp
  | some c =>
    have hne := trimRightSlash_getLast p
    rw [hX] at hne
    simpa using hne

/-- C6: the built argument vector is the fixed flag set (archive, verbose,
compress, `--delete`, `--partial`, `--stats`, then `-e` with the ssh
command embedding the key path and relaxed host-key checks), then a
`--bwlimit` flag exactly when the configured limit is positive, then the
source and destination: a file-mode source verbatim, a directory-mode
source with exactly one trailing slash (never two, whatever the configured
path ends in), and a destination of `host:` plus the remote path with all
trailing slashes stripped and exactly one re-appended. -/
theorem claim_C6_rsync_args (cfg : Config) :
    buildRsyncArgs cfg =
      ["-avz", "--delete", "--partial", "--stats", "-e",
        sshCommand cfg.sshKeyPath] ++
        (if 0 < cfg.bandwidthLimit then
          ["--bwlimit=" ++ toString cfg.bandwidthLimit]
        else []) ++
        [sourceArg cfg, destArg cfg] ∧
    sshCommand cfg.sshKeyPath =
      "ssh -i " ++ cfg.sshKeyPath ++
        " -o StrictHostKeyChecking=no -o UserKnownHostsFile=/dev/null" ∧
    (cfg.sourceIsFile = true → sourceArg cfg = cfg.sourcePath) ∧
    (cfg.sourceIsFile = false →
      sourceArg cfg = trimRightSlash cfg.sourcePath ++ "/" ∧
      (sourceArg cfg).data.getLast? = some '/' ∧
      ¬ ['/', '/'] <:+ (sourceArg cfg).data) ∧
    destArg cfg = cfg.remoteHost ++ ":" ++ trimRightSlash cfg.remotePath ++ "/" ∧
    (destArg cfg).data.getLast? = some '/' ∧
    ¬ ['/', '/'] <:+ (destArg cfg).data := by
  refine ⟨?_, rfl, ?_, ?_, rfl, ?_, ?_⟩
  · unfold buildRsyncArgs
    by_cases h : 0 < cfg.bandwidthLimit <;> simp [h]
  · intro h
    simp [sourceArg, h]
  · intro h
    refine ⟨by simp [sourceArg, h], ?_, ?_⟩
    · rw [sourceArg, if_neg (by simp [h]), String.data_append,
        List.getLast?_append]
      simp
    · rw [sourceArg, if_neg (by simp [h]), String.data_append]
      exact no_double_slash (trimRightSlash_getLast cfg.sourcePath)
  · rw [destArg, String.data_append, List.getLast?_append]
    simp
  · rw [destArg, String.data_append]
    exact no_double_slash (destPrefix_getLast cfg.remoteHost cfg.remotePath)

/-- Concrete instance of C6: a directory source already ending in slashes
is normalised to a single trailing slash. -/
theorem claim_C6_witness :
    sourceArg ⟨"/a/b//", false, "user@h", "/backups/x/", "/key", 0,
        "./logs", 30⟩ =
      trimRightSlash "/a/b//" ++ "/" ∧
    ¬ ['/', '/'] <:+ (sourceArg ⟨"/a/b//", false, "user@h", "/backups/x/",
        "/key", 0, "./logs", 30⟩).data :=
  ⟨((claim_C6_rsync_args _).2.2.2.1 rfl).1,
   ((claim_C6_rsync_args _).2.2.2.1 rfl).2.2⟩

/-! ## Claim C7: log filename access control -/

theorem prefixCheck_iff (n h : List Char) : prefixCheck n h = true ↔ n <+: h := by
  induction n generalizing h with
  | nil => simp [prefixCheck]
  | cons a as ih =>
    cases h with
    | nil => simp [prefixCheck]
    | cons b bs => simp [prefixCheck, ih, List.cons_prefix_cons]

theorem containsSub_iff (hay needle : List Char) :
    containsSub hay needle = true ↔ needle <:+: hay := by
  induction hay with
  | nil => cases needle <;> simp [containsSub, prefixCheck]
  | cons x t ih =>
    simp [containsSub, Bool.or_eq_true, prefixCheck_iff, ih,
      List.infix_cons_iff]

theorem stringsContains_iff (s sub : String) :
    stringsContains s sub = true ↔ sub.data <:+: s.data :=
  containsSub_iff s.data sub.data

theorem singleton_infix_iff (c : Char) (l : List Char) :
    [c] <:+: l ↔ c ∈ l := by
  constructor
  · rintro ⟨s, t, rfl⟩
    simp
  · intro h
    obtain ⟨s, t, rfl⟩ := List.mem_iff_append.mp h
    exact ⟨s, t, by simp⟩

/-- C7: `ReadLog` rejects, with the "invalid log filename" error issued
before any filesystem access, every filename containing a `/`, a `\` or
the substring `..`, and for every other filename issues exactly one read of
the file of that name inside the configured log directory. -/
theorem claim_C7_readlog_guard (logDir filename : String) :
    (('/' ∈ filename.data ∨ '\\' ∈ filename.data ∨
        ['.', '.'] <:+: filename.data) →
      ReadLog logDir filename = Except.error "invalid log filename") ∧
    (¬ ('/' ∈ filename.data ∨ '\\' ∈ filename.data ∨
        ['.', '.'] <:+: filename.data) →
      ReadLog logDir filename =
        Except.ok { dir := logDir, name := filename }) := by
  have key : (stringsContains filename "/" || stringsContains filename "\\"
        || stringsContains filename "..") = true ↔
      ('/' ∈ filename.data ∨ '\\' ∈ filename.data ∨
        ['.', '.'] <:+: filename.data) := by
    simp [Bool.or_eq_true, stringsContains_iff,
      show ("/" : String).data = ['/'] from rfl,
      show ("\\" : String).data = ['\\'] from rfl,
      show (".." : String).data = ['.', '.'] from rfl,
      singleton_infix_iff, or_assoc]
  constructor
  · intro h
    unfold ReadLog
    rw [if_pos (key.mpr h)]
  · intro h
    unfold ReadLog
    rw [if_neg (fun hc => h (key.mp hc))]

/-- Concrete instance of C7: a traversal attempt is rejected, a plain
transcript name is read from the log directory. -/
theorem claim_C7_witness :
    ReadLog "./logs" "../../etc/passwd" = Except.error "invalid log filename" ∧
    ReadLog "./logs" "backup-20240102-030405.log" =
      Except.ok { dir := "./logs", name := "backup-20240102-030405.log" } :=
  ⟨(claim_C7_readlog_guard "./logs" "../../etc/passwd").1 (by decide),
   (claim_C7_readlog_guard "./logs" "backup-20240102-030405.log").2 (by decide)⟩

/-! ## Claim C8: transcript retention -/

/-- C8: retention only ever deletes non-directory entries named
`backup-*.log` (so in particular never the history persistence file); when
the transcript count is within the configured maximum nothing is deleted,
and when it exceeds the maximum exactly the excess oldest names in
ascending order are deleted, leaving exactly the configured maximum
newest-named transcripts. -/
theorem claim_C8_retention (maxLogFiles : Nat) (entries : List DirEntry) :
    (∀ r ∈ pruneOldLogs maxLogFiles entries,
      ∃ e ∈ entries, e.name = r ∧ e.isDir = false ∧
        ("backup-").data <+: r.data ∧ (".log").data <:+ r.data) ∧
    "history.json" ∉ pruneOldLogs maxLogFiles entries ∧
    ((entries.filter isBackupLog).length ≤ maxLogFiles →
      pruneOldLogs maxLogFiles entries = []) ∧
    (maxLogFiles < (entries.filter isBackupLog).length →
      (pruneOldLogs maxLogFiles entries).length =
        (entries.filter isBackupLog).length - maxLogFiles ∧
      List.Pairwise (fun a b => a ≤ b) (pruneOldLogs maxLogFiles entries) ∧
      ∃ kept : List String, kept.length = maxLogFiles ∧
        (pruneOldLogs maxLogFiles entries ++ kept).Perm
          ((entries.filter isBackupLog).map DirEntry.name) ∧
        ∀ r ∈ pruneOldLogs maxLogFiles entries, ∀ k ∈ kept, r ≤ k) := by
  have hmem : ∀ r ∈ pruneOldLogs maxLogFiles entries,
      ∃ e ∈ entries, e.name = r ∧ e.isDir = false ∧
        ("backup-").data <+: r.data ∧ (".log").data <:+ r.data := by
    intro r hr
    unfold pruneOldLogs at hr
    by_cases hle : (entries.filter isBackupLog).length ≤ maxLogFiles
    · rw [if_pos hle] at hr
      simp at hr
    · rw [if_neg hle] at hr
      have hr2 : r ∈ ((entries.filter isBackupLog).map
          DirEntry.name).insertionSort (fun a b => a ≤ b) :=
        List.mem_of_mem_take hr
      have hr3 : r ∈ (entries.filter isBackupLog).map DirEntry.name :=
        (List.perm_insertionSort _ _).mem_iff.mp hr2
      obtain ⟨e, he, rfl⟩ := List.mem_map.mp hr3
      obtain ⟨hent, hlog⟩ := List.mem_filter.mp he
      have hlog' := hlog
      unfold isBackupLog at hlog'
      simp only [Bool.and_eq_true, Bool.not_eq_true'] at hlog'
      refine ⟨e, hent, rfl, hlog'.1.1, ?_, ?_⟩
      · exact (prefixCheck_iff _ _).mp hlog'.1.2
      · exact List.reverse_prefix.mp ((prefixCheck_iff _ _).mp hlog'.2)
  refine ⟨hmem, ?_, ?_, ?_⟩
  · intro hcontra
    obtain ⟨e, _, _, _, hpre, _⟩ := hmem _ hcontra
    revert hpre
    decide
  · intro hle
    unfold pruneOldLogs
    rw [if_pos hle]
  · intro hlt
    have hne : ¬ (entries.filter isBackupLog).length ≤ maxLogFiles := by omega
    have hprune : pruneOldLogs maxLogFiles entries =
        (((entries.filter isBackupLog).map DirEntry.name).insertionSort
          (fun a b => a ≤ b)).take
          ((entries.filter isBackupLog).length - maxLogFiles) := by
      unfold pruneOldLogs
      rw [if_neg hne]
    have hperm : ((((entries.filter isBackupLog).map
        DirEntry.name).insertionSort (fun a b => a ≤ b))).Perm
          ((entries.filter isBackupLog).map DirEntry.name) :=
      List.perm_insertionSort _ _
    have hslen : ((((entries.filter isBackupLog).map
        DirEntry.name).insertionSort (fun a b => a ≤ b))).length =
          (entries.filter isBackupLog).length := by
      rw [hperm.length_eq, List.length_map]
    have hsorted : List.Pairwise (fun a b : String => a ≤ b)
        (((entries.filter isBackupLog).map DirEntry.name).insertionSort
          (fun a b => a ≤ b)) :=
      List.sorted_insertionSort (fun a b => a ≤ b)
        ((entries.filter isBackupLog).map DirEntry.name)
    refine ⟨?_, ?_, ?_⟩
    · rw [hprune, List.length_take, hslen]
      omega
    · rw [hprune]
      exact hsorted.sublist (List.take_sublist _ _)
    · refine ⟨(((entries.filter isBackupLog).map DirEntry.name).insertionSort
        (fun a b => a ≤ b)).drop
          ((entries.filter isBackupLog).length - maxLogFiles), ?_, ?_, ?_⟩
      · rw [List.length_drop, hslen]
        omega
      · rw [hprune, List.take_append_drop]
        exact hperm
      · rw [hprune]
        have hsp := hsorted
        rw [← List.take_append_drop
          ((entries.filter isBackupLog).length - maxLogFiles)
          (((entries.filter isBackupLog).map DirEntry.name).insertionSort
            (fun a b => a ≤ b))] at hsp
        exact fun r hr k hk => (List.pairwise_append.mp hsp).2.2 r hr k hk

/-- Concrete instance of C8: with cap 3 and five transcripts plus the
history file, the history file is never deleted and exactly two names are
deleted; with the transcript count within the cap, nothing is deleted. -/
theorem claim_C8_witness :
    "history.json" ∉ pruneOldLogs 3
      [⟨"backup-1.log", false⟩, ⟨"backup-5.log", false⟩,
       ⟨"backup-2.log", false⟩, ⟨"history.json", false⟩,
       ⟨"backup-4.log", false⟩, ⟨"backup-3.log", false⟩] ∧
    (pruneOldLogs 3
      [⟨"backup-1.log", false⟩, ⟨"backup-5.log", false⟩,
       ⟨"backup-2.log", false⟩, ⟨"history.json", false⟩,
       ⟨"backup-4.log", false⟩, ⟨"backup-3.log", false⟩]).length =
      ([⟨"backup-1.log", false⟩, ⟨"backup-5.log", false⟩,
        ⟨"backup-2.log", false⟩, ⟨"history.json", false⟩,
        ⟨"backup-4.log", false⟩,
        (⟨"backup-3.log", false⟩ : DirEntry)].filter isBackupLog).length - 3 ∧
    pruneOldLogs 3 [⟨"backup-1.log", false⟩, ⟨"history.json", false⟩] = [] :=
  ⟨(claim_C8_retention 3
      [⟨"backup-1.log", false⟩, ⟨"backup-5.log", false⟩,
       ⟨"backup-2.log", false⟩, ⟨"history.json", false⟩,
       ⟨"backup-4.log", false⟩, ⟨"backup-3.log", false⟩]).2.1,
   ((claim_C8_retention 3
      [⟨"backup-1.log", false⟩, ⟨"backup-5.log", false⟩,
       ⟨"backup-2.log", false⟩, ⟨"history.json", false⟩,
       ⟨"backup-4.log", false⟩, ⟨"backup-3.log", false⟩]).2.2.2
     (by decide)).1,
   (claim_C8_retention 3
      [⟨"backup-1.log", false⟩, ⟨"history.json", false⟩]).2.2.1 (by decide)⟩

/-! ## Claim C10: run identifiers -/

theorem digitChar_inj : ∀ a : Nat, a < 10 → ∀ b : Nat, b < 10 →
    Nat.digitChar a = Nat.digitChar b → a = b := by decide

theorem formatRunID_injective {t t' : GoTime} (ht : t.Valid) (ht' : t'.Valid)
    (h : formatRunID t = formatRunID t') : t = t' := by
  obtain ⟨y, mo, d, hr, mi, sc⟩ := t
  obtain ⟨y', mo', d', hr', mi', sc'⟩ := t'
  obtain ⟨hy, hm1, hm2, hd1, hd2, hh, hmi, hs⟩ := ht
  obtain ⟨hy', hm1', hm2', hd1', hd2', hh', hmi', hs'⟩ := ht'
  have hl := congrArg String.data h
  simp only [formatRunID, List.cons.injEq, and_true] at hl
  obtain ⟨e1, e2, e3, e4, e5, e6, e7, e8, _, e9, e10, e11, e12, e13, e14⟩ := hl
  simp only at hy hm1 hm2 hd1 hd2 hh hmi hs hy' hm1' hm2' hd1' hd2' hh' hmi' hs'
  have qy : y = y' := by
    have q1 := digitChar_inj _ (by omega) _ (by omega) e1
    have q2 := digitChar_inj _ (by omega) _ (by omega) e2
    have q3 := digitChar_inj _ (by omega) _ (by omega) e3
    have q4 := digitChar_inj _ (by omega) _ (by omega) e4
    omega
  have qmo : mo = mo' := by
    have q1 := digitChar_inj _ (by omega) _ (by omega) e5
    have q2 := digitChar_inj _ (by omega) _ (by omega) e6
    omega
  have qd : d = d' := by
    have q1 := digitChar_inj _ (by omega) _ (by omega) e7
    have q2 := digitChar_inj _ (by omega) _ (by omega) e8
    omega
  have qh : hr = hr' := by
    have q1 := digitChar_inj _ (by omega) _ (by omega) e9
    have q2 := digitChar_inj _ (by omega) _ (by omega) e10
    omega
  have qmi : mi = mi' := by
    have q1 := digitChar_inj _ (by omega) _ (by omega) e11
    have q2 := digitChar_inj _ (by omega) _ (by omega) e12
    omega
  have qs : sc = sc' := by
    have q1 := digitChar_inj _ (by omega) _ (by omega) e13
    have q2 := digitChar_inj _ (by omega) _ (by omega) e14
    omega
  simp [qy, qmo, qd, qh, qmi, qs]

/-- C10 fails as stated: two distinct runs started within the same
wall-clock second receive the same time-derived id. On an idle executor a
first run started at `tSame` completes successfully, and a second run then
starts within the very same second; both starts are accepted, the two run
records are distinct (one completed in history, one current), yet their ids
coincide. -/
theorem claim_C10_counterexample :
    (Run tSame initExecutor).1 = none ∧
    (Run tSame initExecutor).2.current = some firstRun ∧
    (Run tSame (execute tSame ExecResult.ok firstRun
        (Run tSame initExecutor).2)).1 = none ∧
    (Run tSame (execute tSame ExecResult.ok firstRun
        (Run tSame initExecutor).2)).2.current.map BackupRun.id =
      (execute tSame ExecResult.ok firstRun
        (Run tSame initExecutor).2).history.head?.map BackupRun.id ∧
    (Run tSame (execute tSame ExecResult.ok firstRun
        (Run tSame initExecutor).2)).2.current ≠
      (execute tSame ExecResult.ok firstRun
        (Run tSame initExecutor).2).history.head? := by
  decide

/-- C10 (amended): the id assigned by `Run` is derived from the start
instant at second resolution, so ids are stable once assigned (completion
leaves the id untouched) and distinct for runs started in distinct valid
wall-clock seconds — but two runs started within the same second share the
same id. -/
theorem claim_C10_id_uniqueness :
    (∀ (now : GoTime) (s : ExecState), s.status ≠ BackupStatus.running →
      (Run now s).2.current.map BackupRun.id = some (formatRunID now)) ∧
    (∀ t t' : GoTime, t.Valid → t'.Valid → t ≠ t' →
      formatRunID t ≠ formatRunID t') ∧
    (∀ (t : GoTime) (s s' : ExecState), s.status ≠ BackupStatus.running →
      s'.status ≠ BackupStatus.running →
      (Run t s).2.current.map BackupRun.id =
        (Run t s').2.current.map BackupRun.id) ∧
    (∀ (endT : GoTime) (run : BackupRun) (code : Int) (summary : String),
      (completeRecord endT run code summary).id = run.id) := by
  refine ⟨?_, ?_, ?_, fun _ _ _ _ => rfl⟩
  · intro now s h
    simp [Run, h]
  · intro t t' ht ht' hne h
    exact hne (formatRunID_injective ht ht' h)
  · intro t s s' h h'
    simp [Run, h, h']

/-- Concrete instance of the amended C10: two valid instants one second
apart yield distinct run ids, and completing a concrete run preserves its
id. -/
theorem claim_C10_witness :
    formatRunID ⟨2024, 1, 2, 3, 4, 5⟩ ≠ formatRunID ⟨2024, 1, 2, 3, 4, 6⟩ ∧
    (completeRecord ⟨2024, 1, 2, 3, 4, 6⟩ firstRun 0
      "completed successfully").id = firstRun.id :=
  ⟨claim_C10_id_uniqueness.2.1 ⟨2024, 1, 2, 3, 4, 5⟩ ⟨2024, 1, 2, 3, 4, 6⟩
      (by decide) (by decide) (by decide),
   claim_C10_id_uniqueness.2.2.2 ⟨2024, 1, 2, 3, 4, 6⟩ firstRun 0
      "completed successfully"⟩

end RsyncWeb
